import Mathlib

/-!
Verification of the image-processing core of the medicine-ocr-flask-api
repository (src/image_processor.py) against its specification.

The file shallowly embeds ImageProcessor.preprocess_image,
ImageProcessor.process_image, ImageProcessor.process_images_in_parallel and
ImageProcessor.process_images_in_batches.  The PIL image operations and the
EasyOCR readtext call are external library capabilities; they are modelled by
their documented contracts (resize returns an image of the requested size,
readtext returns a list of detections or raises).  Exception flow follows
CPython semantics for the try / except block of process_image.
-/

/-- Model of a PIL image: width and height in pixels and the PIL mode string
(for instance RGB, or L for single-channel grayscale).  Pixel contents are
irrelevant to every property proved here and are not modelled. -/
structure PILImage where
  width : Nat
  height : Nat
  mode : String
deriving DecidableEq, Repr

/-- Contract of PIL Image.resize: when both requested dimensions are
positive, returns a new image of exactly the requested (width, height) in the
same mode; when a requested dimension is 0, Pillow raises
ValueError (height and width must be > 0), modelled as the error case. -/
def PILImage.resize (img : PILImage) (size : Nat × Nat) : Except String PILImage :=
  if size.1 = 0 ∨ size.2 = 0 then .error "height and width must be > 0"
  else .ok { width := size.1, height := size.2, mode := img.mode }

/-- Contract of PIL Image.convert: returns a new image of the same size in the
requested mode. -/
def PILImage.convert (img : PILImage) (mode : String) : PILImage :=
  { img with mode := mode }

/-- Contract of PIL Image.filter with ImageFilter.GaussianBlur(radius=1):
blurring changes pixel contents only; size and mode are preserved. -/
def PILImage.gaussianBlur (img : PILImage) : PILImage :=
  img

/-- ImageProcessor.preprocess_image, image_processor.py lines 21-40: resize to
(width // 2, height // 2), convert to grayscale mode L, apply Gaussian blur.
All three steps run unconditionally on every call; when a halved dimension is
0 (input width or height below 2), the resize call raises ValueError, which
this function does not catch and therefore propagates, modelled as the error
case. -/
def preprocess_image (image : PILImage) : Except String PILImage :=
  match image.resize (image.width / 2, image.height / 2) with
  | .error e => .error e
  | .ok image =>
      let image := image.convert "L"
      let image := image.gaussianBlur
      .ok image

/-- One EasyOCR detection as consumed by process_image: readtext returns
triples (bbox, text, confidence); bbox is a list of corner points, each an
(x, y) pair.  The confidence component is discarded by the destructuring
(for bbox, text, _ in result) at line 70 and is not modelled. -/
structure RawDet where
  bbox : List (Int × Int)
  text : String
deriving DecidableEq, Repr

/-- Line 70: the tuple (bbox[0][1], bbox[0][0], text), i.e. the (y, x) anchor
taken from the FIRST corner point of the bounding box, followed by the text.
Returns none when bbox is empty, where Python would raise IndexError. -/
def anchorTriple (d : RawDet) : Option (Int × Int × String) :=
  match d.bbox with
  | [] => none
  | p :: _ => some (p.2, p.1, d.text)

/-- Lines 69-71: the list comprehension building text_with_coordinates; none
when some bbox is empty (an IndexError inside the comprehension). -/
def extractAnchors (result : List RawDet) : Option (List (Int × Int × String)) :=
  result.mapM anchorTriple

/-- The sort order of line 74, key=lambda coord: (coord[0], coord[1]): the
non-strict lexicographic order on the (y, x) anchor; the text component takes
no part in the comparison. -/
def coordLE (a b : Int × Int × String) : Prop :=
  a.1 < b.1 ∨ (a.1 = b.1 ∧ a.2.1 ≤ b.2.1)

instance : DecidableRel coordLE := fun a b => by
  unfold coordLE
  infer_instance

instance : IsTotal (Int × Int × String) coordLE := by
  constructor
  intro a b
  unfold coordLE
  rcases lt_trichotomy a.1 b.1 with h | h | h
  · exact Or.inl (Or.inl h)
  · rcases le_total a.2.1 b.2.1 with hx | hx
    · exact Or.inl (Or.inr ⟨h, hx⟩)
    · exact Or.inr (Or.inr ⟨h.symm, hx⟩)
  · exact Or.inr (Or.inl h)

instance : IsTrans (Int × Int × String) coordLE := by
  constructor
  intro a b c hab hbc
  unfold coordLE at *
  rcases hab with h1 | ⟨h1, h1x⟩ <;> rcases hbc with h2 | ⟨h2, h2x⟩
  · exact Or.inl (h1.trans h2)
  · exact Or.inl (h2 ▸ h1)
  · exact Or.inl (h1 ▸ h2)
  · exact Or.inr ⟨h1.trans h2, h1x.trans h2x⟩

/-- The strict lexicographic order on the (y, x) anchor; used to show the sort
result is unique when no two fragments share an anchor. -/
def coordLT (a b : Int × Int × String) : Prop :=
  a.1 < b.1 ∨ (a.1 = b.1 ∧ a.2.1 < b.2.1)

instance : IsAntisymm (Int × Int × String) coordLT := by
  constructor
  intro a b hab hba
  exfalso
  rcases hab with h1 | ⟨h1, h1x⟩ <;> rcases hba with h2 | ⟨h2, h2x⟩
  · exact absurd (h1.trans h2) (lt_irrefl _)
  · exact absurd h1 (h2 ▸ lt_irrefl _)
  · exact absurd h2 (h1 ▸ lt_irrefl _)
  · exact absurd (h1x.trans h2x) (lt_irrefl _)

/-- The (y, x) anchor pair of an extracted triple. -/
def anchorKey (f : Int × Int × String) : Int × Int :=
  (f.1, f.2.1)

/-- Line 74: text_with_coordinates.sort(key=lambda coord: (coord[0], coord[1])).
Python list.sort is a stable sort on this key; a stable sort is modelled
exactly by insertion sort under the non-strict key order coordLE. -/
def sortFrags (tws : List (Int × Int × String)) : List (Int × Int × String) :=
  List.insertionSort coordLE tws

/-- Loop body of lines 81-88.  The state is (lines, current_y, current_line);
the fragment is (y, x, text).  The first branch fires when current_y is None
or abs(y - current_y) > 10: it closes the current line when nonempty and opens
a new line at y.  The second branch appends the text to the current line and
leaves current_y unchanged. -/
def lineStep (st : List String × Option Int × List String)
    (f : Int × Int × String) : List String × Option Int × List String :=
  match st, f with
  | (lines, current_y, current_line), (y, _, text) =>
    match current_y with
    | none =>
        (if current_line.isEmpty then lines
         else lines ++ [String.intercalate " " current_line],
         some y, [text])
    | some y0 =>
        if 10 < |y - y0| then
          (if current_line.isEmpty then lines
           else lines ++ [String.intercalate " " current_line],
           some y, [text])
        else
          (lines, some y0, current_line ++ [text])

/-- Lines 77-92: the banding sweep over the (already sorted) triples, with
current_y seeded from the first element (line 78), followed by the append of
the last open line (lines 91-92). -/
def groupIntoLines (tws : List (Int × Int × String)) : List String :=
  let current_y : Option Int := tws.head?.map (fun f => f.1)
  let st := tws.foldl lineStep ([], current_y, [])
  if st.2.2.isEmpty then st.1 else st.1 ++ [String.intercalate " " st.2.2]

/-- Lines 74-95: sort the triples, group them into lines, join the lines with
a newline separator. -/
def reconstructText (tws : List (Int × Int × String)) : String :=
  String.intercalate "\n" (groupIntoLines (sortFrags tws))

/-- A Python exception escaping process_image.  The only escape path in this
code is the TypeError raised while matching a live exception against the
class easyocr.Reader named by the clause at line 102. -/
inductive PyException where
  | typeError (msg : String)
deriving DecidableEq, Repr

/-- The TypeError CPython raises when an except clause names a class that does
not derive from BaseException.  The clause except easyocr.Reader at line 102
names the reader class, not an exception type, so whenever an exception is
live in the try block this TypeError is raised during the match; it is not
matched against the later except Exception clause of the same try statement
and propagates to the caller. -/
def brokenExceptClause : PyException :=
  .typeError "catching classes that do not inherit from BaseException is not allowed"

/-- Shape of the dictionaries returned by process_image: the success flag plus
the optional keys text and error, an absent key modelled by none. -/
structure PResult where
  success : Bool
  text : Option String
  error : Option String
deriving DecidableEq, Repr

/-- ImageProcessor.process_image, lines 42-113, parameterised by the EasyOCR
readtext call: readtext img is ok with the detection list on normal return
and error msg when the call raises an exception described by msg.  The
np.array conversion is the identity in this model.  Any exception raised
inside the try block (the ValueError from a zero-dimension resize inside
preprocess_image at line 53, a raising readtext call, or the IndexError from
an empty bbox at line 70) reaches the clause except easyocr.Reader
(line 102) first; easyocr.Reader is not a BaseException subclass, so CPython
raises a TypeError during the clause match, the clause except Exception
(line 108) is never consulted, and the TypeError propagates: the failure
dictionaries of lines 104-107 and 110-113 are unreachable. -/
def process_image (image : PILImage)
    (readtext : PILImage → Except String (List RawDet)) :
    Except PyException PResult :=
  match preprocess_image image with
  | .error _ => .error brokenExceptClause
  | .ok image =>
  match readtext image with
  | .error _ => .error brokenExceptClause
  | .ok result =>
    if result.isEmpty then
      .ok { success := false, text := none,
            error := some "No text detected in the image." }
    else
      match extractAnchors result with
      | none => .error brokenExceptClause
      | some tws =>
          .ok { success := true, text := some (reconstructText tws), error := none }

/-- ImageProcessor.process_images_in_parallel, lines 115-129:
executor.map(self.process_image, images) preserves input order, and
list(...) collects results in that order, re-raising the first exception a
worker raised when its slot is reached.  This order-preserving fail-fast
collection is mapM in the Except monad. -/
def process_images_in_parallel (readtext : PILImage → Except String (List RawDet))
    (images : List PILImage) : Except PyException (List PResult) :=
  images.mapM (fun img => process_image img readtext)

/-- The consecutive slices images[i : i + batch_size] for
i = 0, batch_size, 2 * batch_size, ... produced by the loop header at
line 143.  For batch_size = 0, where Python range(0, n, 0) raises ValueError,
the model returns no batches; every claim about batching assumes a positive
batch size. -/
def pyBatches {α : Type} : Nat → List α → List (List α)
  | 0, _ => []
  | _, [] => []
  | bs + 1, a :: l =>
      ((a :: l).take (bs + 1)) :: pyBatches (bs + 1) ((a :: l).drop (bs + 1))
termination_by _ l => l.length
decreasing_by
  simp only [List.drop_succ_cons, List.length_drop, List.length_cons]
  omega

/-- ImageProcessor.process_images_in_batches, lines 131-146: the loop
results.extend(self.process_images_in_parallel(batch)) over the consecutive
slices; an exception raised while processing a batch propagates, abandoning
the results accumulated so far. -/
def process_images_in_batches (readtext : PILImage → Except String (List RawDet))
    (images : List PILImage) (batch_size : Nat) :
    Except PyException (List PResult) := do
  let rs ← (pyBatches batch_size images).mapM (process_images_in_parallel readtext)
  pure rs.flatten

/-- Structural form of mapM in the Except monad: stop at the first error,
collect the successes in order otherwise.  Used to reason about the two
batch-processing functions; a bridging lemma proves it equal to List.mapM. -/
def exceptMapM {α β ε : Type} (f : α → Except ε β) : List α → Except ε (List β)
  | [] => .ok []
  | x :: xs =>
      match f x with
      | .error e => .error e
      | .ok b =>
          match exceptMapM f xs with
          | .error e => .error e
          | .ok bs => .ok (b :: bs)

/-- Modelled from the spec (section 4.3 step 4 and the anchor-fixing test of
section 8): reference band formation anchored at the FIRST member of each
band.  Given the y anchor of the first fragment of the open band and the
texts accumulated so far, a fragment joins the band exactly when the absolute
difference between its anchor y and that first y is at most 10; otherwise the
band is emitted and a new band opens at the fragment. -/
def specBandsAux (y0 : Int) (cur : List String) :
    List (Int × Int × String) → List (List String)
  | [] => [cur]
  | f :: rest =>
      if 10 < |f.1 - y0| then cur :: specBandsAux f.1 [f.2.2] rest
      else specBandsAux y0 (cur ++ [f.2.2]) rest

/-- Modelled from the spec: the bands of a sorted fragment sequence, each band
anchored at its first member. -/
def specBands : List (Int × Int × String) → List (List String)
  | [] => []
  | f :: rest => specBandsAux f.1 [f.2.2] rest

/-- Helper: running the sweep from an open band (anchored at y0, with the
nonempty accumulated texts cur) and then closing the last band produces the
bands computed by the spec reference, each joined with single spaces. -/
theorem foldl_lineStep_eq_specBandsAux (rest : List (Int × Int × String)) :
    ∀ (lines cur : List String) (y0 : Int), cur ≠ [] →
      (let st := rest.foldl lineStep (lines, some y0, cur)
       if st.2.2.isEmpty then st.1 else st.1 ++ [String.intercalate " " st.2.2])
      = lines ++ (specBandsAux y0 cur rest).map (String.intercalate " ") := by
  induction rest with
  | nil =>
      intro lines cur y0 hcur
      simp [specBandsAux, List.isEmpty_iff, hcur]
  | cons f rest ih =>
      intro lines cur y0 hcur
      obtain ⟨y, x, t⟩ := f
      by_cases h : 10 < |y - y0|
      · have hstep : lineStep (lines, some y0, cur) (y, x, t)
            = (lines ++ [String.intercalate " " cur], some y, [t]) := by
          simp [lineStep, h, List.isEmpty_iff, hcur]
        simp only [List.foldl_cons, hstep]
        rw [ih (lines ++ [String.intercalate " " cur]) [t] y (by simp)]
        simp [specBandsAux, h]
      · have hstep : lineStep (lines, some y0, cur) (y, x, t)
            = (lines, some y0, cur ++ [t]) := by
          simp [lineStep, h]
        simp only [List.foldl_cons, hstep]
        rw [ih lines (cur ++ [t]) y0 (by simp)]
        simp [specBandsAux, h]

/-- C1: the banding sweep of process_image keeps the reference y of the band
fixed at the first member of the band: groupIntoLines agrees with the spec
reference specBands, in which a fragment joins the band exactly when its
anchor y is within 10 of the y of the FIRST fragment of the band, and on the
anchors y = 0, 9, 18 the third fragment opens a new band even though it is
within 10 of the second. -/
theorem c1_band_reference_fixed_to_first_member :
    (∀ tws : List (Int × Int × String),
      groupIntoLines tws = (specBands tws).map (String.intercalate " "))
    ∧ process_image ⟨100, 50, "RGB"⟩
        (fun _ => .ok [⟨[(0, 0)], "a"⟩, ⟨[(1, 9)], "b"⟩, ⟨[(2, 18)], "c"⟩])
      = .ok ⟨true, some "a b\nc", none⟩ := by
  constructor
  · intro tws
    match tws with
    | [] => rfl
    | f :: rest =>
        obtain ⟨y, x, t⟩ := f
        have hstep : lineStep ([], some y, []) (y, x, t) = ([], some y, [t]) := by
          simp [lineStep]
        show (let st := (( y, x, t) :: rest).foldl lineStep ([], some y, [])
              if st.2.2.isEmpty then st.1
              else st.1 ++ [String.intercalate " " st.2.2])
            = (specBands ((y, x, t) :: rest)).map (String.intercalate " ")
        simp only [List.foldl_cons, hstep]
        rw [foldl_lineStep_eq_specBandsAux rest [] [t] y (by simp)]
        simp [specBands]
  · rfl

/-- C2: the vertical tolerance of the sweep is a closed bound of 10.  For any
two fragments, the second joins the band opened by the first exactly when the
absolute difference of their anchor y values is at most 10; through the whole
pipeline, anchors y = 0 and y = 10 produce one output line and anchors y = 0
and y = 11 produce two. -/
theorem c2_vertical_tolerance_closed_bound :
    (∀ y0 y : Int,
      groupIntoLines [(y0, 0, "a"), (y, 1, "b")]
        = if |y - y0| ≤ 10 then ["a b"] else ["a", "b"])
    ∧ process_image ⟨100, 50, "RGB"⟩
        (fun _ => .ok [⟨[(0, 0)], "a"⟩, ⟨[(1, 10)], "b"⟩])
      = .ok ⟨true, some "a b", none⟩
    ∧ process_image ⟨100, 50, "RGB"⟩
        (fun _ => .ok [⟨[(0, 0)], "a"⟩, ⟨[(1, 11)], "b"⟩])
      = .ok ⟨true, some "a\nb", none⟩ := by
  refine ⟨?_, rfl, rfl⟩
  intro y0 y
  by_cases h : |y - y0| ≤ 10
  · have h1 : ¬ (10 : Int) < |y0 - y0| := by simp
    have h2 : ¬ (10 : Int) < |y - y0| := not_lt.mpr h
    simp [groupIntoLines, lineStep, h1, h2, h]
    rfl
  · have h1 : ¬ (10 : Int) < |y0 - y0| := by simp
    have h2 : (10 : Int) < |y - y0| := not_le.mp h
    simp [groupIntoLines, lineStep, h1, h2, h]
    exact ⟨rfl, rfl⟩

/-- C3, counterexample: a band is NOT always x-ascending.  The fragments with
anchors (y = 0, x = 100) and (y = 5, x = 10) are left by the sort in that
(y, x)-lexicographic order, both fall into one band (|5 - 0| is at most 10),
and the output line is "A B": the text of the x = 100 fragment precedes the
text of the x = 10 fragment inside one band, so the texts of a band are not
in x-ascending order as the claim states. -/
theorem c3_counterexample_band_not_x_ascending :
    sortFrags [(0, 100, "A"), (5, 10, "B")] = [(0, 100, "A"), (5, 10, "B")]
    ∧ groupIntoLines [(0, 100, "A"), (5, 10, "B")] = ["A B"]
    ∧ reconstructText [(0, 100, "A"), (5, 10, "B")] = "A B" := by
  exact ⟨rfl, rfl, rfl⟩

/-- C3, amended: process_image orders the fragments by the composite key
(anchor y ascending, then anchor x ascending), where the anchor is the first
corner point of the bounding box; consequently the texts of a band appear in
that sort order rather than detection order, and in particular two fragments
with equal anchor y appear left to right: for anchors (y = 5, x = 50) and
(y = 5, x = 10) given in that detection order, the x = 10 text precedes the
x = 50 text in the output line. -/
theorem c3_fragments_sorted_by_y_then_x :
    (∀ tws : List (Int × Int × String), List.Sorted coordLE (sortFrags tws))
    ∧ (∀ tws : List (Int × Int × String), List.Perm (sortFrags tws) tws)
    ∧ (∀ (x y : Int) (q : List (Int × Int)) (t : String),
        anchorTriple ⟨(x, y) :: q, t⟩ = some (y, x, t))
    ∧ reconstructText [(5, 50, "R"), (5, 10, "L")] = "L R" := by
  refine ⟨?_, ?_, ?_, rfl⟩
  · intro tws
    exact List.sorted_insertionSort coordLE tws
  · intro tws
    exact List.perm_insertionSort coordLE tws
  · intro x y q t
    rfl

/-- C4: an empty detection list makes process_image return the structured
failure dictionary success = false with the no-text error message; no success
with an empty string, and no fault escapes on this path. -/
theorem c4_empty_result_is_structured_failure
    (image pre : PILImage) (readtext : PILImage → Except String (List RawDet))
    (hpre : preprocess_image image = .ok pre)
    (h : readtext pre = .ok []) :
    process_image image readtext
      = .ok ⟨false, none, some "No text detected in the image."⟩ := by
  simp only [process_image, hpre, h]
  rfl

/-- Witness for C4 at a concrete image and a recognizer returning no
fragments. -/
theorem c4_empty_result_is_structured_failure_witness :
    process_image ⟨64, 32, "RGB"⟩ (fun _ => .ok [])
      = .ok ⟨false, none, some "No text detected in the image."⟩ :=
  c4_empty_result_is_structured_failure ⟨64, 32, "RGB"⟩ ⟨32, 16, "L"⟩
    (fun _ => .ok []) rfl rfl

/-- Helper: a non-strict (y, x) comparison between triples with distinct
anchors is strict. -/
theorem coordLE_of_ne_lt {a b : Int × Int × String}
    (h : coordLE a b) (hne : anchorKey a ≠ anchorKey b) : coordLT a b := by
  rcases h with h1 | ⟨h1, h1x⟩
  · exact Or.inl h1
  · refine Or.inr ⟨h1, lt_of_le_of_ne h1x ?_⟩
    intro hx
    exact hne (by simp [anchorKey, h1, hx])

/-- Helper: when no two elements of the input share a (y, x) anchor, the
sorted sequence is unique: it is determined by the multiset of elements. -/
theorem sortFrags_eq_of_perm {l1 l2 : List (Int × Int × String)}
    (hperm : List.Perm l1 l2)
    (hkeys : l1.Pairwise (fun a b => anchorKey a ≠ anchorKey b)) :
    sortFrags l1 = sortFrags l2 := by
  have hp1 : List.Perm (sortFrags l1) l1 := List.perm_insertionSort coordLE l1
  have hp2 : List.Perm (sortFrags l2) l2 := List.perm_insertionSort coordLE l2
  have hsym : ∀ {a b : Int × Int × String},
      anchorKey a ≠ anchorKey b → anchorKey b ≠ anchorKey a := fun h => h.symm
  have hk1 : (sortFrags l1).Pairwise (fun a b => anchorKey a ≠ anchorKey b) :=
    (List.Perm.pairwise_iff hsym hp1).mpr hkeys
  have hk2 : (sortFrags l2).Pairwise (fun a b => anchorKey a ≠ anchorKey b) :=
    (List.Perm.pairwise_iff hsym hp2).mpr
      ((List.Perm.pairwise_iff hsym hperm).mp hkeys)
  have hs1 : List.Sorted coordLT (sortFrags l1) :=
    ((List.sorted_insertionSort coordLE l1).and hk1).imp
      (fun h => coordLE_of_ne_lt h.1 h.2)
  have hs2 : List.Sorted coordLT (sortFrags l2) :=
    ((List.sorted_insertionSort coordLE l2).and hk2).imp
      (fun h => coordLE_of_ne_lt h.1 h.2)
  exact List.eq_of_perm_of_sorted (hp1.trans (hperm.trans hp2.symm)) hs1 hs2

/-- C5: layout reconstruction is deterministic in the fragment set.  Two
permutations of one fragment list, in which no two fragments share a (y, x)
anchor, reconstruct to the identical output text. -/
theorem c5_reconstruction_deterministic
    {l1 l2 : List (Int × Int × String)}
    (hperm : List.Perm l1 l2)
    (hkeys : l1.Pairwise (fun a b => anchorKey a ≠ anchorKey b)) :
    reconstructText l1 = reconstructText l2 := by
  unfold reconstructText
  rw [sortFrags_eq_of_perm hperm hkeys]

/-- Witness for C5 on a two-element list and its transposition. -/
theorem c5_reconstruction_deterministic_witness :
    reconstructText [(0, 0, "a"), (5, 1, "b")]
      = reconstructText [(5, 1, "b"), (0, 0, "a")] :=
  c5_reconstruction_deterministic
    (List.Perm.swap (5, 1, "b") (0, 0, "a") [])
    (by decide)

/-- Helper: one unfolding step of exceptMapM on a cons cell. -/
theorem exceptMapM_cons {α β ε : Type} (f : α → Except ε β) (x : α) (xs : List α) :
    exceptMapM f (x :: xs)
      = match f x with
        | .error e => .error e
        | .ok b =>
            match exceptMapM f xs with
            | .error e => .error e
            | .ok bs => .ok (b :: bs) := rfl

/-- Helper: List.mapM in the Except monad agrees with the structural
exceptMapM. -/
theorem mapM_eq_exceptMapM {α β ε : Type} (f : α → Except ε β) (l : List α) :
    l.mapM f = exceptMapM f l := by
  rw [← List.mapM'_eq_mapM]
  induction l with
  | nil => rfl
  | cons x xs ih =>
      simp only [List.mapM']
      rw [ih]
      cases hx : f x with
      | error e =>
          simp only [exceptMapM, hx]
          rfl
      | ok b =>
          cases hxs : exceptMapM f xs with
          | error e =>
              simp only [exceptMapM, hx, hxs]
              rfl
          | ok bs =>
              simp only [exceptMapM, hx, hxs]
              rfl

/-- Helper: a successful exceptMapM returns one output per input. -/
theorem exceptMapM_ok_length {α β ε : Type} (f : α → Except ε β) :
    ∀ (l : List α) (rs : List β), exceptMapM f l = .ok rs → rs.length = l.length := by
  intro l
  induction l with
  | nil =>
      intro rs h
      simp only [exceptMapM] at h
      cases h
      rfl
  | cons x xs ih =>
      intro rs h
      rw [exceptMapM_cons] at h
      cases hx : f x with
      | error e => rw [hx] at h; cases h
      | ok b =>
          rw [hx] at h
          cases hxs : exceptMapM f xs with
          | error e => rw [hxs] at h; cases h
          | ok bs =>
              rw [hxs] at h
              cases h
              simp [ih bs hxs]

/-- Helper: exceptMapM distributes over list append, failing with the first
error of the left part, then of the right part. -/
theorem exceptMapM_append {α β ε : Type} (f : α → Except ε β) (l1 l2 : List α) :
    exceptMapM f (l1 ++ l2)
      = match exceptMapM f l1 with
        | .error e => .error e
        | .ok a =>
            match exceptMapM f l2 with
            | .error e => .error e
            | .ok b => .ok (a ++ b) := by
  induction l1 with
  | nil =>
      simp only [List.nil_append, exceptMapM]
      cases exceptMapM f l2 with
      | error e => rfl
      | ok b => rfl
  | cons x xs ih =>
      cases hx : f x with
      | error e =>
          simp only [List.cons_append, exceptMapM_cons, hx, ih]
      | ok b =>
          simp only [List.cons_append, exceptMapM_cons, hx, ih]
          cases exceptMapM f xs with
          | error e => rfl
          | ok a =>
              cases exceptMapM f l2 with
              | error e => rfl
              | ok c => rfl

/-- Helper: processing the consecutive batches of a positive batch size and
flattening the collected chunk results is the same computation as processing
the whole list at once, both on success and on the first propagated error. -/
theorem batches_flatten_eq {α β ε : Type} (f : α → Except ε β) (k : Nat) :
    ∀ (n : Nat) (l : List α), l.length ≤ n →
      Except.map List.flatten (exceptMapM (exceptMapM f) (pyBatches (k + 1) l))
        = exceptMapM f l := by
  intro n
  induction n with
  | zero =>
      intro l hl
      have h0 : l = [] := List.eq_nil_of_length_eq_zero (Nat.le_zero.mp hl)
      subst h0
      simp [pyBatches, exceptMapM, Except.map]
  | succ n ih =>
      intro l hl
      match l with
      | [] => simp [pyBatches, exceptMapM, Except.map]
      | a :: l' =>
          rw [pyBatches, exceptMapM_cons]
          conv_rhs => rw [← List.take_append_drop (k + 1) (a :: l'), exceptMapM_append]
          have hlen : ((a :: l').drop (k + 1)).length ≤ n := by
            simp only [List.length_drop, List.length_cons]
            simp only [List.length_cons] at hl
            omega
          have ihd := ih ((a :: l').drop (k + 1)) hlen
          cases hc : exceptMapM f ((a :: l').take (k + 1)) with
          | error e => rfl
          | ok a0 =>
              cases hd : exceptMapM (exceptMapM f)
                  (pyBatches (k + 1) ((a :: l').drop (k + 1))) with
              | error e =>
                  have hde : exceptMapM f ((a :: l').drop (k + 1)) = .error e := by
                    rw [← ihd, hd]
                    rfl
                  rw [hde]
                  rfl
              | ok rs =>
                  have hdo : exceptMapM f ((a :: l').drop (k + 1)) = .ok rs.flatten := by
                    rw [← ihd, hd]
                    rfl
                  rw [hdo]
                  rfl

/-- C6: for every image list and positive batch size,
process_images_in_batches computes exactly the value of
process_images_in_parallel on the whole list (the same result sequence in
input order, and the same propagated first error, if any), and on success the
parallel pipeline returns one result per input image in input order. -/
theorem c6_batching_equals_unchunked_pipeline
    (readtext : PILImage → Except String (List RawDet))
    (images : List PILImage) (batch_size : Nat) (hbs : 0 < batch_size) :
    process_images_in_batches readtext images batch_size
      = process_images_in_parallel readtext images
    ∧ ∀ rs : List PResult,
        process_images_in_parallel readtext images = .ok rs →
          rs.length = images.length := by
  obtain ⟨k, rfl⟩ : ∃ k, batch_size = k + 1 := ⟨batch_size - 1, by omega⟩
  have hfun : process_images_in_parallel readtext
      = exceptMapM (fun img => process_image img readtext) := by
    funext c
    exact mapM_eq_exceptMapM _ c
  constructor
  · unfold process_images_in_batches
    rw [hfun, mapM_eq_exceptMapM]
    have key := batches_flatten_eq (fun img => process_image img readtext)
      k images.length images le_rfl
    rw [← key]
    cases exceptMapM (exceptMapM fun img => process_image img readtext)
        (pyBatches (k + 1) images) with
    | error e => rfl
    | ok rs => rfl
  · intro rs h
    unfold process_images_in_parallel at h
    rw [mapM_eq_exceptMapM] at h
    exact exceptMapM_ok_length _ images rs h

/-- Witness for C6 at three concrete images and batch size two. -/
theorem c6_batching_equals_unchunked_pipeline_witness :
    process_images_in_batches (fun _ => .ok []) [⟨2, 2, "RGB"⟩, ⟨4, 4, "RGB"⟩, ⟨6, 6, "RGB"⟩] 2
      = process_images_in_parallel (fun _ => .ok []) [⟨2, 2, "RGB"⟩, ⟨4, 4, "RGB"⟩, ⟨6, 6, "RGB"⟩]
    ∧ ∀ rs : List PResult,
        process_images_in_parallel (fun _ => .ok [])
            [⟨2, 2, "RGB"⟩, ⟨4, 4, "RGB"⟩, ⟨6, 6, "RGB"⟩] = .ok rs →
          rs.length = [⟨2, 2, "RGB"⟩, ⟨4, 4, "RGB"⟩, (⟨6, 6, "RGB"⟩ : PILImage)].length :=
  c6_batching_equals_unchunked_pipeline (fun _ => .ok [])
    [⟨2, 2, "RGB"⟩, ⟨4, 4, "RGB"⟩, ⟨6, 6, "RGB"⟩] 2 (by decide)

/-- C7 is violated by the code: faults are NOT caught.  When the recognition
call raises (here with message model crashed), the clause except
easyocr.Reader makes CPython raise a TypeError that propagates out of
process_image instead of a structured failure dictionary, and in
process_images_in_batches this exception aborts the whole batch: the result
is the propagated exception, not a sequence with one failure slot. -/
theorem c7_fault_propagates_and_aborts_batch :
    process_image ⟨8, 8, "RGB"⟩ (fun _ => .error "model crashed")
      = .error brokenExceptClause
    ∧ process_images_in_batches (fun _ => .error "model crashed")
        [⟨8, 8, "RGB"⟩, ⟨9, 9, "RGB"⟩, ⟨10, 10, "RGB"⟩] 2
      = .error brokenExceptClause := by
  constructor
  · rfl
  · have hb : pyBatches 2 [⟨8, 8, "RGB"⟩, ⟨9, 9, "RGB"⟩, (⟨10, 10, "RGB"⟩ : PILImage)]
        = [[⟨8, 8, "RGB"⟩, ⟨9, 9, "RGB"⟩], [⟨10, 10, "RGB"⟩]] := by
      simp [pyBatches]
    unfold process_images_in_batches
    rw [hb]
    rfl

/-- C8 is violated by the code: an adapter fault is never wrapped into an
OCR-failed structured failure.  A raising recognition call makes
process_image propagate a TypeError, and the only failure dictionary any run
of process_image can return is the no-text one: every successfully returned
dictionary carries either no error or the no-text message, never an OCR
failed message. -/
theorem c8_adapter_fault_never_wrapped :
    process_image ⟨6, 6, "RGB"⟩ (fun _ => .error "adapter exploded")
      = .error brokenExceptClause
    ∧ ∀ (image : PILImage) (readtext : PILImage → Except String (List RawDet))
        (r : PResult),
        process_image image readtext = .ok r →
          r.error = none ∨ r.error = some "No text detected in the image." := by
  constructor
  · rfl
  · intro image readtext r h
    unfold process_image at h
    split at h
    · exact Except.noConfusion h
    · split at h
      · exact Except.noConfusion h
      · split at h
        · injection h with h2
          subst h2
          exact Or.inr rfl
        · split at h
          · exact Except.noConfusion h
          · injection h with h2
            subst h2
            exact Or.inl rfl

/-- Witness for the universally quantified part of the C8 theorem, at a
recognizer returning no fragments. -/
theorem c8_adapter_fault_never_wrapped_witness :
    (⟨false, none, some "No text detected in the image."⟩ : PResult).error = none
    ∨ (⟨false, none, some "No text detected in the image."⟩ : PResult).error
        = some "No text detected in the image." :=
  c8_adapter_fault_never_wrapped.2 ⟨4, 4, "RGB"⟩ (fun _ => .ok [])
    ⟨false, none, some "No text detected in the image."⟩ rfl

/-- C9: every dictionary that process_image actually returns satisfies the
ProcessingResult shape invariant: a text key exactly when success is true, an
error key exactly when success is false, never both. -/
theorem c9_result_shape_invariant
    (image : PILImage) (readtext : PILImage → Except String (List RawDet))
    (r : PResult) (h : process_image image readtext = .ok r) :
    (r.success = true → (∃ t, r.text = some t) ∧ r.error = none)
    ∧ (r.success = false → r.text = none ∧ ∃ e, r.error = some e) := by
  unfold process_image at h
  split at h
  · exact Except.noConfusion h
  · split at h
    · exact Except.noConfusion h
    · split at h
      · injection h with h2
        subst h2
        constructor
        · intro hs
          cases hs
        · intro _
          exact ⟨rfl, "No text detected in the image.", rfl⟩
      · split at h
        · exact Except.noConfusion h
        · injection h with h2
          subst h2
          constructor
          · intro _
            refine ⟨⟨_, rfl⟩, rfl⟩
          · intro hs
            cases hs

/-- Witness for C9 at a recognizer returning no fragments. -/
theorem c9_result_shape_invariant_witness :
    ((⟨false, none, some "No text detected in the image."⟩ : PResult).success = true →
        (∃ t, (⟨false, none, some "No text detected in the image."⟩ : PResult).text = some t)
        ∧ (⟨false, none, some "No text detected in the image."⟩ : PResult).error = none)
    ∧ ((⟨false, none, some "No text detected in the image."⟩ : PResult).success = false →
        (⟨false, none, some "No text detected in the image."⟩ : PResult).text = none
        ∧ ∃ e, (⟨false, none, some "No text detected in the image."⟩ : PResult).error = some e) :=
  c9_result_shape_invariant ⟨4, 4, "RGB"⟩ (fun _ => .ok [])
    ⟨false, none, some "No text detected in the image."⟩ rfl

/-- C10, counterexample: an input narrower than 2 pixels does NOT yield an
image with a zero dimension.  The halved width 0 makes the Pillow resize
call raise ValueError (height and width must be > 0), so preprocess_image on
a 1 by 5 input propagates that fault and returns no image at all. -/
theorem c10_counterexample_small_input_raises :
    preprocess_image ⟨1, 5, "RGB"⟩ = .error "height and width must be > 0" := rfl

/-- C10, amended: for every input image whose width and height are both at
least 2, preprocess_image returns a new single-channel grayscale image (mode
L) whose width is floor(w / 2) and height is floor(h / 2), the downscale and
blur applied unconditionally on every call; an input with w < 2 or h < 2
instead makes the unconditional resize call raise ValueError (height and
width must be > 0), which preprocess_image propagates rather than returning
a zero-dimension image. -/
theorem c10_preprocess_halves_and_grayscales (image : PILImage) :
    (2 ≤ image.width → 2 ≤ image.height →
      preprocess_image image = .ok ⟨image.width / 2, image.height / 2, "L"⟩)
    ∧ (image.width < 2 ∨ image.height < 2 →
      preprocess_image image = .error "height and width must be > 0") := by
  constructor
  · intro hw hh
    unfold preprocess_image PILImage.resize
    have hno : ¬(image.width / 2 = 0 ∨ image.height / 2 = 0) := by omega
    rw [if_neg hno]
    rfl
  · intro h
    unfold preprocess_image PILImage.resize
    have hyes : image.width / 2 = 0 ∨ image.height / 2 = 0 := by omega
    rw [if_pos hyes]

/-- Witness for C10 at a five-by-four image and a one-by-one image. -/
theorem c10_preprocess_halves_and_grayscales_witness :
    preprocess_image ⟨5, 4, "RGB"⟩ = .ok ⟨2, 2, "L"⟩
    ∧ preprocess_image ⟨1, 1, "RGB"⟩ = .error "height and width must be > 0" :=
  ⟨(c10_preprocess_halves_and_grayscales ⟨5, 4, "RGB"⟩).1 (by decide) (by decide),
   (c10_preprocess_halves_and_grayscales ⟨1, 1, "RGB"⟩).2 (Or.inl (by decide))⟩
